import Mathlib

/-
Shallow embedding of the customization-selection module
(packages/core/src/codewhisperer/util/customizationUtil.ts).

The module manages which remote customization is selected for an AI
code-suggestion feature: it lists available customizations across region
profiles, persists a snapshot, validates the current selection, and falls
back to a base customization when the selection becomes unavailable.

Modelling conventions:
- Global mutable state (the key-value global state, auth flags, UI side
  effects) is an explicit record St threaded through every operation.
- Remote calls and user responses are an explicit environment record Env.
- JavaScript exceptions are modelled with Except String; an operation that
  can let an exception escape returns Except String _ together with the
  state reached so far.
- UI side effects (notifications, log lines, executed commands, opened
  urls) are recorded as append-only lists inside St.
-/

set_option autoImplicit false

deriving instance DecidableEq for Except

namespace CwUtil

/-- Modelled from the spec: a Customization record fetched from the remote
service, with identifier (arn), display name and description (the client
type definition itself is outside the provided sources). -/
structure Customization where
  arn : String
  name : String
  description : String
deriving DecidableEq, Repr

/-- Region profile (scope) under which customizations are visible. -/
structure RegionProfile where
  name : String
  region : String
  arn : String
deriving DecidableEq, Repr

/-- Spread type Customization and profile, as produced by
getAvailableCustomizationsList which tags each customization with its
originating profile. -/
structure CustomizationWithProfile extends Customization where
  profile : RegionProfile
deriving DecidableEq, Repr

/-- Active connection, only its label is read by this module. -/
structure Conn where
  label : String
deriving DecidableEq, Repr

/-- Event delivered when the active region profile changes. -/
structure ProfileChangedEvent where
  profile : Option RegionProfile
  intent : String
deriving DecidableEq, Repr

/-- Lookup in an association list modelling a JavaScript object keyed by
strings; returns the value of the first matching key. -/
def getKey {α : Type} : List (String × α) → String → Option α
  | [], _ => none
  | (k, v) :: rest, key => if k = key then some v else getKey rest key

/-- Update in an association list modelling a JavaScript object keyed by
strings: replaces the binding of the key when present, appends otherwise. -/
def setKey {α : Type} : List (String × α) → String → α → List (String × α)
  | [], key, v => [(key, v)]
  | (k, w) :: rest, key, v =>
    if k = key then (key, v) :: rest else (k, w) :: setKey rest key v

/-- Explicit global state of the module: the persisted key-value entries,
the auth flags it reads, and append-only logs of the UI side effects it
performs. -/
structure St where
  isCustomizationFeatureEnabled : Bool
  isValidEnterpriseSsoInUse : Bool
  conn : Option Conn
  selectedMap : List (String × Customization)
  persistedMap : List (String × List Customization)
  overrideV2 : Option String
  newCustomizationsCount : Nat
  isFreeTierLimitReached : Bool
  infoMessages : List String
  warnMessages : List String
  errorLogs : List String
  debugLogs : List String
  executedCommands : List String
  openedUrls : List String
deriving DecidableEq, Repr

def pushInfo (s : St) (m : String) : St := { s with infoMessages := s.infoMessages ++ [m] }

def pushWarn (s : St) (m : String) : St := { s with warnMessages := s.warnMessages ++ [m] }

def pushErrorLog (s : St) (m : String) : St := { s with errorLogs := s.errorLogs ++ [m] }

def pushDebugLog (s : St) (m : String) : St := { s with debugLogs := s.debugLogs ++ [m] }

/-- Environment of external collaborators: remote call results and user
responses to the notifications shown by this module. -/
structure Env where
  listRegionProfileResult : Except String (List RegionProfile)
  createQClientResult : RegionProfile → Except String Unit
  listCustomizationsResult : RegionProfile → Except String (List Customization)
  selectAnotherResponse : Bool
  newCustomizationResponse : Option String

/-- Sentinel base customization with empty arn (customizationUtil.ts,
baseCustomization). -/
def baseCustomization : Customization :=
  { arn := ""
  , name := "Amazon Q foundation (Default)"
  , description := "Receive suggestions from Amazon Q base model" }

def customizationNotAvailableMessage : String :=
  "Selected Amazon Q customization is not available. Contact your administrator. Your instance of Amazon Q is using the foundation model."

def selectAnotherCustomizationLabel : String :=
  "Select Another Customization"

/-- Modelled from the spec: the new-customizations notification text lives
in an out-of-scope constants module; its exact value is immaterial here. -/
def newCustomizationMessage : String :=
  "You have new Amazon Q customizations available."

/-- Modelled from the spec: the learn-more url lives in an out-of-scope
constants module. -/
def customLearnMoreUri : String :=
  "https://aws.amazon.com/q/customizations"

def noCustomizationsMessage : String :=
  "You dont have access to any Amazon Q customization. Contact your admin for access."

/-- Embedding of getSelectedCustomization (customizationUtil.ts lines
159-180): base customization unless the feature is enabled, a valid
enterprise SSO connection exists, and the stored entry for the connection
label has a non-empty name. -/
def getSelectedCustomization (s : St) : Customization :=
  match s.conn with
  | none => baseCustomization
  | some conn =>
    if !s.isCustomizationFeatureEnabled || !s.isValidEnterpriseSsoInUse then baseCustomization
    else
      match getKey s.selectedMap conn.label with
      | none => baseCustomization
      | some c => if c.name ≠ "" then c else baseCustomization

/-- Embedding of setSelectedCustomization (customizationUtil.ts lines
189-213): guarded by the SSO check, with the override idempotence guard,
writing the selection, the override marker, clearing the free-tier flag and
triggering a status bar refresh. -/
def setSelectedCustomization (s : St) (customization : Customization) (isOverride : Bool) : St :=
  match s.conn with
  | none => s
  | some conn =>
    if !s.isValidEnterpriseSsoInUse then s
    else if isOverride && decide (s.overrideV2 = some customization.arn) then s
    else
      let s1 := { s with
        selectedMap := setKey s.selectedMap conn.label customization,
        debugLogs := s.debugLogs ++
          ["Selected customization " ++ customization.name ++ " for " ++ conn.label] }
      let s2 := if isOverride then { s1 with overrideV2 := some customization.arn } else s1
      { s2 with isFreeTierLimitReached := false,
                executedCommands := s2.executedCommands ++ ["aws.amazonq.refreshStatusBar"] }

/-- Embedding of getPersistedCustomizations (customizationUtil.ts lines
215-225). -/
def getPersistedCustomizations (s : St) : List Customization :=
  match s.conn with
  | none => []
  | some conn =>
    if !s.isValidEnterpriseSsoInUse then []
    else (getKey s.persistedMap conn.label).getD []

/-- Embedding of setPersistedCustomizations (customizationUtil.ts lines
227-238). -/
def setPersistedCustomizations (s : St) (customizations : List Customization) : St :=
  match s.conn with
  | none => s
  | some conn =>
    if !s.isValidEnterpriseSsoInUse then s
    else { s with persistedMap := setKey s.persistedMap conn.label customizations }

/-- Embedding of setNewCustomizationsAvailable (customizationUtil.ts lines
244-247). -/
def setNewCustomizationsAvailable (s : St) (num : Nat) : St :=
  { s with newCustomizationsCount := num, isFreeTierLimitReached := false }

/-- Embedding of getNewCustomizations (customizationUtil.ts lines 90-93):
filter of the available list keeping items whose arn is not among the
persisted arns. -/
def getNewCustomizations (s : St) (availableCustomizations : List Customization) : List Customization :=
  availableCustomizations.filter
    (fun c => !(((getPersistedCustomizations s).map (fun p => p.arn)).contains c.arn))

/-- Embedding of isSelectedCustomizationAvailable (customizationUtil.ts
lines 143-145). -/
def isSelectedCustomizationAvailable (available : List Customization) (selected : Customization) : Bool :=
  selected.arn == "" || (available.map (fun c => c.arn)).contains selected.arn

/-- Result of the raw paginated remote listing for one profile: the
flattened page contents on success, empty on the caught transport error. -/
def fetchedCustomizations (env : Env) (p : RegionProfile) : List Customization :=
  match env.listCustomizationsResult p with
  | Except.ok cs => cs
  | Except.error _ => []

/-- Embedding of CustomizationProvider.listAvailableCustomizations
(customizationUtil.ts lines 33-49): the transport error is caught, logged
and converted to an empty list. -/
def listAvailableCustomizations (env : Env) (p : RegionProfile) (s : St) : List Customization × St :=
  match env.listCustomizationsResult p with
  | Except.ok cs => (cs, s)
  | Except.error e => ([], pushErrorLog s ("failed to listAvailableCustomizations: " ++ e))

def withProfile (c : Customization) (p : RegionProfile) : CustomizationWithProfile :=
  { arn := c.arn, name := c.name, description := c.description, profile := p }

/-- Loop body of getAvailableCustomizationsList (customizationUtil.ts lines
418-428): for each profile, build the provider (client creation may throw,
modelled by createQClientResult) and append the tagged customizations. -/
def collectAcrossProfiles (env : Env) : List RegionProfile → St → List CustomizationWithProfile →
    Except String (List CustomizationWithProfile) × St
  | [], s, acc => (Except.ok acc, s)
  | p :: rest, s, acc =>
    match env.createQClientResult p with
    | Except.error e => (Except.error e, s)
    | Except.ok _ =>
      let r := listAvailableCustomizations env p s
      collectAcrossProfiles env rest r.2 (acc ++ r.1.map (fun c => withProfile c p))

/-- Embedding of getAvailableCustomizationsList (customizationUtil.ts lines
407-431): profile enumeration failure is caught and yields an empty list;
per-profile listing failures are caught one level down. -/
def getAvailableCustomizationsList (env : Env) (s : St) :
    Except String (List CustomizationWithProfile) × St :=
  match env.listRegionProfileResult with
  | Except.error e =>
    (Except.ok [], pushErrorLog s ("Failed to list customizations because listAvailableProfiles failed " ++ e))
  | Except.ok profiles => collectAcrossProfiles env profiles s []

/-- Expected aggregate of a cross-profile fetch: per profile, the items the
remote listing returned (empty for a profile whose listing failed), each
tagged with its profile. -/
def taggedFetched (env : Env) : List RegionProfile → List CustomizationWithProfile
  | [] => []
  | p :: rest => (fetchedCustomizations env p).map (fun c => withProfile c p) ++ taggedFetched env rest

/-- Picker item as assembled by createCustomizationItem and
createBaseCustomizationItem; the onClick callback is not modelled (it is
run by the out-of-scope prompt service). -/
structure PickerItem where
  label : String
  detail : String
  description : String
  data : Option String
  recentlyUsed : Bool
deriving DecidableEq, Repr

def renderDescriptionText (_label : String) (isNewCustomization : Bool) : String :=
  if isNewCustomization then "   New" else ""

/-- Modelled from the spec: the icon-rendering utility is an out-of-scope
UI collaborator; it prepends an opaque icon marker to the text. -/
def iconLabel (text : String) : String :=
  "$(circuit-board) " ++ text

/-- Split a character list at every colon, keeping empty segments. -/
def splitColons : List Char → List (List Char)
  | [] => [[]]
  | c :: rest =>
    let r := splitColons rest
    if c = ':' then [] :: r
    else
      match r with
      | [] => [[c]]
      | seg :: segs => (c :: seg) :: segs

/-- Modelled from the spec: the external ARN parsing utility, an
out-of-scope collaborator. It yields the account id field of a well-formed
arn (six colon-separated segments starting with the literal arn) and fails
on malformed input. -/
def parseArnAccountId (arn : String) : Option String :=
  let segments := (splitColons arn.data).map String.mk
  if 6 ≤ segments.length ∧ segments.head? = some ("arn") then some ((segments.get? 4).getD "")
  else none

/-- Name-to-count map built by createCustomizationItems (customizationUtil.ts
lines 303-309): counts occurrences of each non-empty display name. -/
def customizationNameToCount (cs : List CustomizationWithProfile) : List (String × Nat) :=
  cs.foldl
    (fun m c =>
      if c.name ≠ "" then setKey m c.name ((getKey m c.name).getD 0 + 1) else m)
    []

/-- Duplicate-name test applied per item inside createCustomizationItems
(customizationUtil.ts lines 314-320). -/
def shouldPrefixAccountIdFor (available : List CustomizationWithProfile) (c : CustomizationWithProfile) : Bool :=
  if c.name ≠ "" then decide (1 < (getKey (customizationNameToCount available) c.name).getD 0)
  else false

/-- Embedding of createCustomizationItem (customizationUtil.ts lines
352-386); the arn parse throw is modelled as an error result. -/
def createCustomizationItem (c : CustomizationWithProfile) (persistedArns : List String)
    (selectedArn : String) (shouldPrefixAccountId : Bool) : Except String PickerItem :=
  match parseArnAccountId c.arn with
  | none => Except.error ("Malformed ARN")
  | some accountId =>
    let displayedName :=
      if c.name ≠ "" then
        if shouldPrefixAccountId then
          if accountId ≠ "" then c.name ++ " (" ++ accountId ++ ")"
          else c.name ++ " (" ++ c.profile.name ++ ")"
        else c.name ++ " (" ++ c.profile.name ++ ")"
      else "unknown"
    let isNewCustomization := !(persistedArns.contains c.arn)
    let label := iconLabel displayedName
    Except.ok
      { label := label
      , detail := if c.description ≠ "" then c.description else "No description provided"
      , description := renderDescriptionText label isNewCustomization
      , data := some c.arn
      , recentlyUsed := selectedArn == c.arn }

/-- Embedding of createBaseCustomizationItem (customizationUtil.ts lines
328-346). -/
def createBaseCustomizationItem (s : St) : PickerItem :=
  let label := iconLabel ("Amazon Q foundation (Default)")
  { label := label
  , detail := "Receive suggestions from Amazon Q base model"
  , description := renderDescriptionText label false
  , data := none
  , recentlyUsed := (getSelectedCustomization s).arn == baseCustomization.arn }

/-- Item construction loop of createCustomizationItems (customizationUtil.ts
lines 312-324); an arn parse throw escapes as an error. -/
def availableCustomizationItems (available : List CustomizationWithProfile)
    (persistedArns : List String) (selectedArn : String) : Except String (List PickerItem) :=
  available.mapM
    (fun c => createCustomizationItem c persistedArns selectedArn (shouldPrefixAccountIdFor available c))

mutual

/-- Embedding of switchToBaseCustomizationAndNotify (customizationUtil.ts
lines 434-450): revert the selection to base, show the warning, and when
the user picks the re-prompt action, run the customization prompt. The fuel
argument bounds the user-interaction recursion. -/
def switchToBaseCustomizationAndNotify (fuel : Nat) (env : Env) (s : St) : Except String Unit × St :=
  let s1 := setSelectedCustomization s baseCustomization false
  let s2 := pushWarn s1 customizationNotAvailableMessage
  if env.selectAnotherResponse then
    match fuel with
    | 0 => (Except.ok (), s2)
    | Nat.succ n => showCustomizationPrompt n env s2
  else (Except.ok (), s2)

/-- Embedding of showCustomizationPrompt (customizationUtil.ts lines
249-269): reset the new-customizations count and build the picker items;
the display of the quick pick and the application of the choice are done by
the out-of-scope prompt service and are not modelled. -/
def showCustomizationPrompt (fuel : Nat) (env : Env) (s : St) : Except String Unit × St :=
  let s1 := setNewCustomizationsAvailable s 0
  match fuel with
  | 0 => (Except.ok (), s1)
  | Nat.succ n =>
    match createCustomizationItems n env s1 with
    | (Except.error e, s2) => (Except.error e, s2)
    | (Except.ok _, s2) => (Except.ok (), s2)

/-- Embedding of createCustomizationItems (customizationUtil.ts lines
271-326): fetch across profiles, read the old snapshot, overwrite it,
validate the selection (possibly reverting with a notification), then
assemble the items with the base item first. -/
def createCustomizationItems (fuel : Nat) (env : Env) (s : St) : Except String (List PickerItem) × St :=
  match getAvailableCustomizationsList env s with
  | (Except.error e, s1) => (Except.error e, s1)
  | (Except.ok available, s1) =>
    let persisted := getPersistedCustomizations s1
    let s2 := setPersistedCustomizations s1 (available.map (fun c => c.toCustomization))
    let selected := getSelectedCustomization s2
    let step :=
      if isSelectedCustomizationAvailable (available.map (fun c => c.toCustomization)) selected then
        (Except.ok (), s2)
      else
        match fuel with
        | 0 => (Except.ok (), s2)
        | Nat.succ n => switchToBaseCustomizationAndNotify n env s2
    match step with
    | (Except.error e, s3) => (Except.error e, s3)
    | (Except.ok _, s3) =>
      if available.isEmpty then
        (Except.ok [createBaseCustomizationItem s3], pushInfo s3 noCustomizationsMessage)
      else
        let persistedArns := persisted.map (fun c => c.arn)
        match availableCustomizationItems available persistedArns (getSelectedCustomization s3).arn with
        | Except.error e => (Except.error e, s3)
        | Except.ok items => (Except.ok (createBaseCustomizationItem s3 :: items), s3)

end

/-- Embedding of onProfileChangedListener (customizationUtil.ts lines
57-83): skip on customization intent, revert to base on an absent profile,
otherwise validate the selected customization against the fresh listing of
the new profile. -/
def onProfileChangedListener (fuel : Nat) (env : Env) (event : ProfileChangedEvent) (s : St) :
    Except String Unit × St :=
  if event.intent = "customization" then (Except.ok (), s)
  else
    match event.profile with
    | none => (Except.ok (), setSelectedCustomization s baseCustomization false)
    | some profile =>
      let selected := getSelectedCustomization s
      if 0 < selected.arn.length then
        match env.createQClientResult profile with
        | Except.error e => (Except.error e, s)
        | Except.ok _ =>
          let r := listAvailableCustomizations env profile s
          match r.1.find? (fun it => it.arn == selected.arn) with
          | some _ => (Except.ok (), r.2)
          | none =>
            let s2 := pushDebugLog r.2
              ("profile " ++ profile.name ++ " doesnt have access to customization " ++ selected.name)
            switchToBaseCustomizationAndNotify fuel env s2
      else (Except.ok (), s)

/-- Embedding of notifyNewCustomizations (customizationUtil.ts lines
95-140): on fetch failure disable the feature, revert to base, log and
stop; on success validate the selection, diff against the snapshot,
overwrite the snapshot, and when the diff is non-empty record the count and
show the notification whose detached response handler is driven by the
environment. -/
def notifyNewCustomizations (fuel : Nat) (env : Env) (s : St) : Except String Unit × St :=
  match getAvailableCustomizationsList env s with
  | (Except.error e, s1) =>
    let s2 := { s1 with isCustomizationFeatureEnabled := false }
    let s3 := setSelectedCustomization s2 baseCustomization false
    (Except.ok (), pushErrorLog s3 ("Failed to fetch customizations: " ++ e))
  | (Except.ok available, s1) =>
    let s2 := { s1 with isCustomizationFeatureEnabled := true }
    let selected := getSelectedCustomization s2
    let step :=
      if isSelectedCustomizationAvailable (available.map (fun c => c.toCustomization)) selected then
        (Except.ok (), s2)
      else switchToBaseCustomizationAndNotify fuel env s2
    match step with
    | (Except.error e, s3) => (Except.error e, s3)
    | (Except.ok _, s3) =>
      let newCustomizations := getNewCustomizations s3 (available.map (fun c => c.toCustomization))
      let s4 := setPersistedCustomizations s3 (available.map (fun c => c.toCustomization))
      if newCustomizations.length = 0 then (Except.ok (), s4)
      else
        let s5 := setNewCustomizationsAvailable s4 newCustomizations.length
        let s6 := pushInfo s5 newCustomizationMessage
        match env.newCustomizationResponse with
        | none => (Except.ok (), s6)
        | some resp =>
          if resp = "Select Customization" then
            match showCustomizationPrompt fuel env s6 with
            | (Except.error e, s7) => (Except.ok (), pushErrorLog s7 ("showCustomizationPrompt failed: " ++ e))
            | (Except.ok _, s7) => (Except.ok (), s7)
          else if resp = "Learn More" then
            (Except.ok (), { s6 with openedUrls := s6.openedUrls ++ [customLearnMoreUri] })
          else (Except.ok (), s6)

/-- Embedding of selectCustomization (customizationUtil.ts lines 388-404):
no-op when the arn equals the currently selected arn, otherwise write the
selection and show the confirmation message. -/
def selectCustomization (s : St) (customization : Customization) : St :=
  let selected := getSelectedCustomization s
  if selected.arn == customization.arn then s
  else
    let s1 := setSelectedCustomization s customization false
    let suffix :=
      if customization.arn == baseCustomization.arn then customization.name
      else customization.name ++ " customization."
    pushInfo s1 ("Amazon Q suggestions are now coming from the " ++ suffix)

/- Concrete fixtures used by witness and counterexample theorems. -/

def exConn : Conn := { label := "ConnL" }

def exProfile : RegionProfile :=
  { name := "ProfA", region := "us-east-1", arn := "arn:aws:iam:us-east-1:1:profile/A" }

def exProfileB : RegionProfile :=
  { name := "ProfB", region := "eu-west-1", arn := "arn:aws:iam:eu-west-1:2:profile/B" }

def exProfileC : RegionProfile :=
  { name := "ProfC", region := "ap-south-1", arn := "arn:aws:iam:ap-south-1:3:profile/C" }

def custA : Customization := { arn := "A", name := "Alpha", description := "da" }

def custB : Customization := { arn := "B", name := "Beta", description := "db" }

def custX : Customization := { arn := "X", name := "Xi", description := "dx" }

/-- A state with the feature enabled, a valid SSO connection, customization
custX selected and custA persisted, and an override marker equal to the arn
of custX. -/
def exState : St :=
  { isCustomizationFeatureEnabled := true
  , isValidEnterpriseSsoInUse := true
  , conn := some exConn
  , selectedMap := [("ConnL", custX)]
  , persistedMap := [("ConnL", [custA])]
  , overrideV2 := some "X"
  , newCustomizationsCount := 0
  , isFreeTierLimitReached := true
  , infoMessages := []
  , warnMessages := []
  , errorLogs := []
  , debugLogs := []
  , executedCommands := []
  , openedUrls := [] }

/-- A state without a valid enterprise SSO connection. -/
def noSsoState : St :=
  { isCustomizationFeatureEnabled := true
  , isValidEnterpriseSsoInUse := false
  , conn := some exConn
  , selectedMap := []
  , persistedMap := [("ConnL", [custA])]
  , overrideV2 := none
  , newCustomizationsCount := 0
  , isFreeTierLimitReached := true
  , infoMessages := []
  , warnMessages := []
  , errorLogs := []
  , debugLogs := []
  , executedCommands := []
  , openedUrls := [] }

/-- A state without a valid enterprise SSO connection whose raw selection
map still holds a stale non-base entry. -/
def staleNoSsoState : St :=
  { noSsoState with selectedMap := [("ConnL", custX)] }

/-- Environment where every remote listing succeeds with an empty list. -/
def envEmpty : Env :=
  { listRegionProfileResult := Except.ok [exProfile]
  , createQClientResult := fun _ => Except.ok ()
  , listCustomizationsResult := fun _ => Except.ok []
  , selectAnotherResponse := false
  , newCustomizationResponse := none }

/-- Environment where client creation fails, so the cross-profile fetch
throws. -/
def envInitFail : Env :=
  { listRegionProfileResult := Except.ok [exProfile]
  , createQClientResult := fun _ => Except.error "no client"
  , listCustomizationsResult := fun _ => Except.ok []
  , selectAnotherResponse := false
  , newCustomizationResponse := none }

/-- Environment with three profiles where the listing of the second profile
fails and the two others succeed. -/
def envPartial : Env :=
  { listRegionProfileResult := Except.ok [exProfile, exProfileB, exProfileC]
  , createQClientResult := fun _ => Except.ok ()
  , listCustomizationsResult := fun p =>
      if p = exProfileB then Except.error "service down"
      else if p = exProfile then Except.ok [custA]
      else Except.ok [custB]
  , selectAnotherResponse := false
  , newCustomizationResponse := none }

/-- Tagged customization named Foo under profile ProfA, with a well-formed
arn whose account id is 123456789012. -/
def fooA : CustomizationWithProfile :=
  { arn := "arn:aws:codewhisperer:us-east-1:123456789012:customization/foo1"
  , name := "Foo", description := "", profile := exProfile }

/-- Tagged customization also named Foo under profile ProfB, with account id
210987654321. -/
def fooB : CustomizationWithProfile :=
  { arn := "arn:aws:codewhisperer:eu-west-1:210987654321:customization/foo2"
  , name := "Foo", description := "", profile := exProfileB }

/-- Tagged customization also named Foo, under profile ProfC, whose arn is
well-formed but has an empty account id field. -/
def fooEmptyAcct : CustomizationWithProfile :=
  { arn := "arn:aws:codewhisperer:ap-south-1::customization/foo3"
  , name := "Foo", description := "", profile := exProfileC }

/-- Profile-change event not caused by a customization selection. -/
def exEvent : ProfileChangedEvent := { profile := some exProfile, intent := "profileSwitch" }

/-- Profile-change event caused by a customization selection. -/
def exEventCust : ProfileChangedEvent := { profile := some exProfile, intent := "customization" }

/-- Expected picker item for fooA when its name is duplicated in the
available list: the label is disambiguated with the account id. -/
def itemFooDup : PickerItem :=
  { label := iconLabel ("Foo (123456789012)")
  , detail := "No description provided"
  , description := "   New"
  , data := some fooA.arn
  , recentlyUsed := false }

/-- Expected picker item for fooEmptyAcct when its name is duplicated in the
available list: the account id parses as empty, so the label falls back to
the profile-name suffix. -/
def itemFooEmpty : PickerItem :=
  { label := iconLabel ("Foo (ProfC)")
  , detail := "No description provided"
  , description := "   New"
  , data := some fooEmptyAcct.arn
  , recentlyUsed := false }

/- Helper lemmas about the association-list primitives. -/

theorem getKey_setKey_self {α : Type} (m : List (String × α)) (k : String) (v : α) :
    getKey (setKey m k v) k = some v := by
  induction m with
  | nil => simp [setKey, getKey]
  | cons p rest ih =>
    obtain ⟨k1, v1⟩ := p
    by_cases h : k1 = k
    · simp [setKey, getKey, h]
    · simp [setKey, getKey, h, ih]

theorem getKey_setKey_ne {α : Type} (m : List (String × α)) (k k2 : String) (v : α)
    (h : k ≠ k2) : getKey (setKey m k v) k2 = getKey m k2 := by
  induction m with
  | nil => simp [setKey, getKey, h]
  | cons p rest ih =>
    obtain ⟨k1, v1⟩ := p
    by_cases h1 : k1 = k
    · simp [setKey, getKey, h1, h]
    · simp [setKey, getKey, h1, ih]

theorem contains_iff_mem (l : List String) (a : String) : l.contains a = true ↔ a ∈ l := by
  induction l with
  | nil => simp
  | cons b t ih => simp [List.contains]

/- Frame and characterization lemmas for the state operations. -/

theorem setSelectedCustomization_frame (s : St) (c : Customization) (io : Bool) :
    (setSelectedCustomization s c io).persistedMap = s.persistedMap ∧
    (setSelectedCustomization s c io).infoMessages = s.infoMessages ∧
    (setSelectedCustomization s c io).warnMessages = s.warnMessages ∧
    (setSelectedCustomization s c io).errorLogs = s.errorLogs ∧
    (setSelectedCustomization s c io).isCustomizationFeatureEnabled = s.isCustomizationFeatureEnabled ∧
    (setSelectedCustomization s c io).isValidEnterpriseSsoInUse = s.isValidEnterpriseSsoInUse ∧
    (setSelectedCustomization s c io).conn = s.conn ∧
    (setSelectedCustomization s c io).openedUrls = s.openedUrls := by
  unfold setSelectedCustomization
  cases hc : s.conn with
  | none => simp [hc]
  | some conn =>
    by_cases h1 : s.isValidEnterpriseSsoInUse
    · simp only [h1, Bool.not_true, Bool.false_eq_true, if_false]
      split
      · simp [hc, h1]
      · split <;> simp [hc, h1]
    · simp [h1, hc]

theorem setSelectedCustomization_writes (s : St) (c : Customization) (conn : Conn)
    (hc : s.conn = some conn) (hsso : s.isValidEnterpriseSsoInUse = true) :
    (setSelectedCustomization s c false).selectedMap = setKey s.selectedMap conn.label c := by
  unfold setSelectedCustomization
  rw [hc]
  simp [hsso]

theorem listAvailableCustomizations_frame (env : Env) (p : RegionProfile) (s : St) :
    (listAvailableCustomizations env p s).1 = fetchedCustomizations env p ∧
    ∃ l, (listAvailableCustomizations env p s).2 = { s with errorLogs := s.errorLogs ++ l } := by
  cases h : env.listCustomizationsResult p with
  | ok cs =>
    refine ⟨by simp [listAvailableCustomizations, fetchedCustomizations, h], ⟨[], ?_⟩⟩
    simp [listAvailableCustomizations, h]
  | error e =>
    refine ⟨by simp [listAvailableCustomizations, fetchedCustomizations, h],
      ⟨["failed to listAvailableCustomizations: " ++ e], ?_⟩⟩
    simp [listAvailableCustomizations, pushErrorLog, h]

/- Case equations for getSelectedCustomization. -/

theorem getSelected_eq_of_conn_none (s : St) (hc : s.conn = none) :
    getSelectedCustomization s = baseCustomization := by
  unfold getSelectedCustomization
  simp only [hc]

theorem getSelected_eq_of_flags (s : St) (conn : Conn) (hc : s.conn = some conn)
    (hf : (!s.isCustomizationFeatureEnabled || !s.isValidEnterpriseSsoInUse) = true) :
    getSelectedCustomization s = baseCustomization := by
  unfold getSelectedCustomization
  simp only [hc]
  rw [if_pos hf]

theorem getSelected_eq_of_no_entry (s : St) (conn : Conn) (hc : s.conn = some conn)
    (hf : ¬(!s.isCustomizationFeatureEnabled || !s.isValidEnterpriseSsoInUse) = true)
    (hk : getKey s.selectedMap conn.label = none) :
    getSelectedCustomization s = baseCustomization := by
  unfold getSelectedCustomization
  simp only [hc, if_neg hf, hk]

theorem getSelected_eq_of_entry_named (s : St) (conn : Conn) (c : Customization)
    (hc : s.conn = some conn)
    (hf : ¬(!s.isCustomizationFeatureEnabled || !s.isValidEnterpriseSsoInUse) = true)
    (hk : getKey s.selectedMap conn.label = some c) (hn : c.name ≠ "") :
    getSelectedCustomization s = c := by
  unfold getSelectedCustomization
  simp only [hc, if_neg hf, hk]
  rw [if_pos hn]

theorem getSelected_eq_of_entry_unnamed (s : St) (conn : Conn) (c : Customization)
    (hc : s.conn = some conn)
    (hf : ¬(!s.isCustomizationFeatureEnabled || !s.isValidEnterpriseSsoInUse) = true)
    (hk : getKey s.selectedMap conn.label = some c) (hn : c.name = "") :
    getSelectedCustomization s = baseCustomization := by
  unfold getSelectedCustomization
  simp only [hc, if_neg hf, hk]
  rw [if_neg (by simp [hn])]

theorem getSelectedCustomization_of_entry (t : St) (conn : Conn) (c : Customization)
    (hc : t.conn = some conn) (hf : t.isCustomizationFeatureEnabled = true)
    (hs : t.isValidEnterpriseSsoInUse = true) (hk : getKey t.selectedMap conn.label = some c)
    (hn : c.name ≠ "") : getSelectedCustomization t = c := by
  unfold getSelectedCustomization
  rw [hc]
  simp [hf, hs, hk, hn]

/-- Inversion: a selected customization with a non-empty arn can only come
from a stored entry under an enabled feature and a valid connection. -/
theorem getSelectedCustomization_nonbase (s : St)
    (h : 0 < (getSelectedCustomization s).arn.length) :
    ∃ conn c, s.conn = some conn ∧ s.isValidEnterpriseSsoInUse = true ∧
      s.isCustomizationFeatureEnabled = true ∧ getKey s.selectedMap conn.label = some c ∧
      c.name ≠ "" ∧ getSelectedCustomization s = c := by
  cases ho : s.conn with
  | none =>
    rw [getSelected_eq_of_conn_none s ho] at h
    simp [baseCustomization] at h
  | some conn =>
    by_cases hf : (!s.isCustomizationFeatureEnabled || !s.isValidEnterpriseSsoInUse) = true
    · rw [getSelected_eq_of_flags s conn ho hf] at h
      simp [baseCustomization] at h
    · have hflags : s.isCustomizationFeatureEnabled = true ∧ s.isValidEnterpriseSsoInUse = true := by
        rcases Bool.eq_false_or_eq_true s.isCustomizationFeatureEnabled with h1 | h1 <;>
        rcases Bool.eq_false_or_eq_true s.isValidEnterpriseSsoInUse with h2 | h2 <;>
          simp [h1, h2] at hf ⊢
      cases hk : getKey s.selectedMap conn.label with
      | none =>
        rw [getSelected_eq_of_no_entry s conn ho hf hk] at h
        simp [baseCustomization] at h
      | some c =>
        by_cases hn : c.name ≠ ""
        · exact ⟨conn, c, rfl, hflags.2, hflags.1, hk, hn,
            getSelected_eq_of_entry_named s conn c ho hf hk hn⟩
        · rw [getSelected_eq_of_entry_unnamed s conn c ho hf hk (by simpa using hn)] at h
          simp [baseCustomization] at h

/-- C1: getNewCustomizations returns exactly the elements of the available
list whose arn is not among the persisted arns, it is a sublist of the
available list (order-preserving), and it is empty when the two arn sets
are equal. -/
theorem getNewCustomizations_spec (s : St) (available : List Customization) :
    (∀ c, c ∈ getNewCustomizations s available ↔
        c ∈ available ∧ c.arn ∉ (getPersistedCustomizations s).map (fun p => p.arn)) ∧
    (getNewCustomizations s available).Sublist available ∧
    ((∀ a, a ∈ available.map (fun c => c.arn) ↔ a ∈ (getPersistedCustomizations s).map (fun p => p.arn)) →
      getNewCustomizations s available = []) := by
  refine ⟨?_, ?_, ?_⟩
  · intro c
    unfold getNewCustomizations
    simp [List.mem_filter, contains_iff_mem]
  · exact List.filter_sublist _
  · intro h
    unfold getNewCustomizations
    rw [List.filter_eq_nil_iff]
    intro c hc
    simp [contains_iff_mem]
    simpa using (h c.arn).1 (List.mem_map_of_mem _ hc)

/-- Witness for C1 at the concrete scenario of the spec: available contains
arns A and B, the persisted snapshot contains arn A, and the diff is
exactly the element with arn B, in available-list order. -/
theorem getNewCustomizations_spec_witness :
    (getNewCustomizations exState [custA, custB]).Sublist [custA, custB] ∧
    getNewCustomizations exState [custA, custB] = [custB] := by
  refine ⟨(getNewCustomizations_spec exState [custA, custB]).2.1, ?_⟩
  decide

/-- C3: setSelectedCustomization with isOverride true and a target arn equal
to the stored override marker leaves the whole state unchanged: no selection
write, no override write, no flag clear, no command execution. -/
theorem setSelectedCustomization_override_idempotent (s : St) (c : Customization)
    (h : s.overrideV2 = some c.arn) :
    setSelectedCustomization s c true = s := by
  unfold setSelectedCustomization
  cases hc : s.conn with
  | none => rfl
  | some conn =>
    by_cases h1 : s.isValidEnterpriseSsoInUse <;> simp [h1, h]

/-- Witness for C3: the override marker of exState equals the arn of custX,
and the call changes nothing. -/
theorem setSelectedCustomization_override_idempotent_witness :
    setSelectedCustomization exState custX true = exState :=
  setSelectedCustomization_override_idempotent exState custX (by decide)

/-- C4: isSelectedCustomizationAvailable is true whenever the selected arn
is empty, and for a non-empty arn it is true exactly when that arn occurs
among the arns of the available list. -/
theorem isSelectedCustomizationAvailable_spec (available : List Customization) (selected : Customization) :
    (selected.arn = "" → isSelectedCustomizationAvailable available selected = true) ∧
    (selected.arn ≠ "" →
      (isSelectedCustomizationAvailable available selected = true ↔
        selected.arn ∈ available.map (fun c => c.arn))) := by
  unfold isSelectedCustomizationAvailable
  constructor
  · intro h
    simp [h]
  · intro h
    simp [h, contains_iff_mem]

/-- Witness for C4: the base customization has an empty arn and is available
against a list that does not contain it, while the non-empty arn X is not
available against a list with only arn A. -/
theorem isSelectedCustomizationAvailable_spec_witness :
    isSelectedCustomizationAvailable [custA] baseCustomization = true ∧
    ¬isSelectedCustomizationAvailable [custA] custX = true := by
  constructor
  · exact (isSelectedCustomizationAvailable_spec [custA] baseCustomization).1 (by decide)
  · intro hcontra
    have h := ((isSelectedCustomizationAvailable_spec [custA] custX).2 (by decide)).1 hcontra
    simp [custA, custX] at h

/-- C9: getSelectedCustomization returns the base customization when the
feature is disabled, the SSO connection is invalid, or no connection
exists, and also when the stored map has no entry for the connection label
or the entry has an empty name; in every case the result is the base
customization or a stored entry with a non-empty name. -/
theorem getSelectedCustomization_spec (s : St) :
    ((s.isCustomizationFeatureEnabled = false ∨ s.isValidEnterpriseSsoInUse = false ∨ s.conn = none) →
      getSelectedCustomization s = baseCustomization) ∧
    (∀ conn, s.conn = some conn → getKey s.selectedMap conn.label = none →
      getSelectedCustomization s = baseCustomization) ∧
    (∀ conn c, s.conn = some conn → getKey s.selectedMap conn.label = some c → c.name = "" →
      getSelectedCustomization s = baseCustomization) ∧
    (getSelectedCustomization s = baseCustomization ∨
      ∃ conn c, s.conn = some conn ∧ getKey s.selectedMap conn.label = some c ∧ c.name ≠ "" ∧
        getSelectedCustomization s = c) := by
  refine ⟨?_, ?_, ?_, ?_⟩
  · intro h
    cases ho : s.conn with
    | none => exact getSelected_eq_of_conn_none s ho
    | some conn =>
      rcases h with h | h | h
      · exact getSelected_eq_of_flags s conn ho (by simp [h])
      · exact getSelected_eq_of_flags s conn ho (by simp [h])
      · rw [h] at ho
        cases ho
  · intro conn hconn hkey
    by_cases hf : (!s.isCustomizationFeatureEnabled || !s.isValidEnterpriseSsoInUse) = true
    · exact getSelected_eq_of_flags s conn hconn hf
    · exact getSelected_eq_of_no_entry s conn hconn hf hkey
  · intro conn c hconn hkey hname
    by_cases hf : (!s.isCustomizationFeatureEnabled || !s.isValidEnterpriseSsoInUse) = true
    · exact getSelected_eq_of_flags s conn hconn hf
    · exact getSelected_eq_of_entry_unnamed s conn c hconn hf hkey hname
  · cases ho : s.conn with
    | none => exact Or.inl (getSelected_eq_of_conn_none s ho)
    | some conn =>
      by_cases hf : (!s.isCustomizationFeatureEnabled || !s.isValidEnterpriseSsoInUse) = true
      · exact Or.inl (getSelected_eq_of_flags s conn ho hf)
      · cases hk : getKey s.selectedMap conn.label with
        | none => exact Or.inl (getSelected_eq_of_no_entry s conn ho hf hk)
        | some c =>
          by_cases hn : c.name ≠ ""
          · exact Or.inr ⟨conn, c, rfl, hk, hn, getSelected_eq_of_entry_named s conn c ho hf hk hn⟩
          · exact Or.inl (getSelected_eq_of_entry_unnamed s conn c ho hf hk (by simpa using hn))

/-- Witness for C9: without a valid SSO connection the selection is the
base customization even though the feature flag is on, and on exState the
stored entry custX is returned. -/
theorem getSelectedCustomization_spec_witness :
    getSelectedCustomization noSsoState = baseCustomization ∧
    getSelectedCustomization exState = custX := by
  constructor
  · exact (getSelectedCustomization_spec noSsoState).1 (Or.inr (Or.inl (by decide)))
  · decide

/-- C10: without a valid enterprise SSO connection, setSelectedCustomization
and setPersistedCustomizations leave the state unchanged and
getPersistedCustomizations returns the empty list. -/
theorem no_valid_sso_frame (s : St) (c : Customization) (io : Bool) (cs : List Customization)
    (h : s.isValidEnterpriseSsoInUse = false ∨ s.conn = none) :
    setSelectedCustomization s c io = s ∧ setPersistedCustomizations s cs = s ∧
    getPersistedCustomizations s = [] := by
  rcases h with h | h
  · unfold setSelectedCustomization setPersistedCustomizations getPersistedCustomizations
    cases hc : s.conn <;> simp [h]
  · unfold setSelectedCustomization setPersistedCustomizations getPersistedCustomizations
    simp [h]

/-- Witness for C10 on noSsoState: writes are skipped and the persisted
snapshot reads as empty even though the raw map has an entry. -/
theorem no_valid_sso_frame_witness :
    setSelectedCustomization noSsoState custA true = noSsoState ∧
    setPersistedCustomizations noSsoState [custB] = noSsoState ∧
    getPersistedCustomizations noSsoState = [] :=
  no_valid_sso_frame noSsoState custA true [custB] (Or.inl (by decide))

/-- C8 counterexample: in a state without a valid SSO connection whose
effective selection is the base customization, selecting custX emits the
confirmation notification but persists nothing, so the claim that a
different customization is both persisted and notified is false as
stated. -/
theorem selectCustomization_claim_counterexample :
    (getSelectedCustomization noSsoState).arn ≠ custX.arn ∧
    (selectCustomization noSsoState custX).selectedMap = noSsoState.selectedMap ∧
    getSelectedCustomization (selectCustomization noSsoState custX) ≠ custX ∧
    (selectCustomization noSsoState custX).infoMessages ≠ noSsoState.infoMessages := by
  decide

/-- C8 as amended: selecting the already selected arn changes nothing and
emits nothing; selecting a different customization emits the confirmation
notification naming the new source and, provided a valid enterprise SSO
connection with an active connection exists, persists the new selection. -/
theorem selectCustomization_spec (s : St) (c : Customization) :
    ((getSelectedCustomization s).arn = c.arn → selectCustomization s c = s) ∧
    ((getSelectedCustomization s).arn ≠ c.arn →
      (selectCustomization s c).infoMessages = s.infoMessages ++
        ["Amazon Q suggestions are now coming from the " ++
          (if c.arn = "" then c.name else c.name ++ " customization.")] ∧
      (∀ conn, s.conn = some conn → s.isValidEnterpriseSsoInUse = true →
        getKey (selectCustomization s c).selectedMap conn.label = some c)) := by
  constructor
  · intro h
    unfold selectCustomization
    simp [h]
  · intro h
    constructor
    · unfold selectCustomization
      rw [if_neg (by simpa using h)]
      have hframe := setSelectedCustomization_frame s c false
      simp [pushInfo, hframe.2.1, baseCustomization]
    · intro conn hconn hsso
      unfold selectCustomization
      rw [if_neg (by simpa using h)]
      simp [pushInfo]
      rw [setSelectedCustomization_writes s c conn hconn hsso]
      exact getKey_setKey_self _ _ _

/-- Witness for C8: on exState selecting the already selected custX is a
no-op, and selecting custB appends exactly the confirmation message and
persists custB under the connection label. -/
theorem selectCustomization_spec_witness :
    selectCustomization exState custX = exState ∧
    (selectCustomization exState custB).infoMessages =
      ["Amazon Q suggestions are now coming from the Beta customization."] ∧
    getKey (selectCustomization exState custB).selectedMap "ConnL" = some custB := by
  refine ⟨(selectCustomization_spec exState custX).1 (by decide), ?_, ?_⟩
  · have h := ((selectCustomization_spec exState custB).2 (by decide)).1
    simpa [exState, custB] using h
  · exact ((selectCustomization_spec exState custB).2 (by decide)).2 exConn (by decide) (by decide)

/- Counting lemmas for the duplicate-name detection of the picker. -/

theorem getKey_nameCount_foldl (l : List CustomizationWithProfile) (n : String) (hn : n ≠ "") :
    ∀ acc : List (String × Nat),
      (getKey (l.foldl
          (fun m c => if c.name ≠ "" then setKey m c.name ((getKey m c.name).getD 0 + 1) else m) acc) n).getD 0
        = (getKey acc n).getD 0 + l.countP (fun c => c.name == n) := by
  induction l with
  | nil => intro acc; simp
  | cons c t ih =>
    intro acc
    simp only [List.foldl_cons, List.countP_cons]
    by_cases hc : c.name = n
    · have hcn : c.name ≠ "" := by rw [hc]; exact hn
      rw [if_pos hcn, ih, hc, getKey_setKey_self]
      simp
      omega
    · have hcnt : (c.name == n) = false := by simp [hc]
      by_cases hce : c.name ≠ ""
      · rw [if_pos hce, ih, getKey_setKey_ne _ _ _ _ hc]
        simp [hcnt]
      · rw [if_neg hce, ih]
        simp [hcnt]

theorem customizationNameToCount_spec (l : List CustomizationWithProfile) (n : String) (hn : n ≠ "") :
    (getKey (customizationNameToCount l) n).getD 0 = l.countP (fun c => c.name == n) := by
  unfold customizationNameToCount
  simpa [getKey] using getKey_nameCount_foldl l n hn []

theorem shouldPrefixAccountIdFor_eq (available : List CustomizationWithProfile)
    (c : CustomizationWithProfile) (hn : c.name ≠ "") :
    shouldPrefixAccountIdFor available c =
      decide (1 < available.countP (fun x => x.name == c.name)) := by
  unfold shouldPrefixAccountIdFor
  rw [if_pos hn, customizationNameToCount_spec available c.name hn]

/-- C7 counterexample: a customization whose display name Foo is unique in
the available list still receives a parenthesized profile-name suffix in
its picker label, so the claim that a unique name receives no suffix is
false as stated. -/
theorem createCustomizationItem_unique_name_gets_suffix :
    (createCustomizationItem fooA [] "" (shouldPrefixAccountIdFor [fooA] fooA)).map (fun i => i.label)
      = Except.ok (iconLabel ("Foo (ProfA)")) ∧
    iconLabel ("Foo (ProfA)") ≠ iconLabel ("Foo") := by
  decide

/-- C7 as amended: every named customization receives a parenthesized
suffix; with a unique display name the suffix is the owning profile name,
and with a duplicated display name the suffix is the account id parsed
from the arn when that id is present and non-empty, and the owning profile
name when the parsed account id is empty. -/
theorem createCustomizationItem_label_spec (available : List CustomizationWithProfile)
    (persistedArns : List String) (selectedArn : String) (c : CustomizationWithProfile)
    (item : PickerItem) (hn : c.name ≠ "")
    (hok : createCustomizationItem c persistedArns selectedArn (shouldPrefixAccountIdFor available c)
      = Except.ok item) :
    (∃ d, item.label = iconLabel (c.name ++ " (" ++ d ++ ")")) ∧
    (available.countP (fun x => x.name == c.name) = 1 →
      item.label = iconLabel (c.name ++ " (" ++ c.profile.name ++ ")")) ∧
    (2 ≤ available.countP (fun x => x.name == c.name) →
      ∀ a, parseArnAccountId c.arn = some a → a ≠ "" →
        item.label = iconLabel (c.name ++ " (" ++ a ++ ")")) ∧
    (2 ≤ available.countP (fun x => x.name == c.name) →
      parseArnAccountId c.arn = some "" →
        item.label = iconLabel (c.name ++ " (" ++ c.profile.name ++ ")")) := by
  rw [shouldPrefixAccountIdFor_eq available c hn] at hok
  unfold createCustomizationItem at hok
  cases hp : parseArnAccountId c.arn with
  | none => rw [hp] at hok; cases hok
  | some accountId =>
    rw [hp] at hok
    simp only [] at hok
    have hitem := (Except.ok.inj hok).symm
    subst hitem
    refine ⟨?_, ?_, ?_, ?_⟩
    · by_cases hd : decide (1 < available.countP (fun x => x.name == c.name)) = true
      · by_cases ha : accountId ≠ ""
        · exact ⟨accountId, by simp [hn, hd, ha]⟩
        · exact ⟨c.profile.name, by simp [hn, hd, ha]⟩
      · exact ⟨c.profile.name, by simp [hn, Bool.eq_false_iff.mpr hd]⟩
    · intro hcount
      have hd : decide (1 < available.countP (fun x => x.name == c.name)) = false := by
        simp [hcount]
      simp [hn, hd]
    · intro hcount a hpa hane
      have hd : decide (1 < available.countP (fun x => x.name == c.name)) = true := by
        simp
        omega
      have haeq : accountId = a := Option.some.inj hpa
      subst haeq
      simp [hn, hd, hane]
    · intro hcount hpa
      have hd : decide (1 < available.countP (fun x => x.name == c.name)) = true := by
        simp
        omega
      have haeq : accountId = "" := Option.some.inj hpa
      subst haeq
      simp [hn, hd]

/-- Witness for C7 (amended): among two Foo customizations, the item of
fooA (non-empty parsed account id) carries the account-id suffix, and the
item of fooEmptyAcct (empty parsed account id) carries the profile-name
suffix. -/
theorem createCustomizationItem_label_spec_witness :
    ((∃ d, itemFooDup.label = iconLabel (fooA.name ++ " (" ++ d ++ ")")) ∧
      itemFooDup.label = iconLabel (fooA.name ++ " (" ++ "123456789012" ++ ")")) ∧
    itemFooEmpty.label = iconLabel (fooEmptyAcct.name ++ " (" ++ fooEmptyAcct.profile.name ++ ")") := by
  have h := createCustomizationItem_label_spec [fooA, fooB] [] "" fooA itemFooDup
    (by decide) (by decide)
  have h2 := createCustomizationItem_label_spec [fooA, fooEmptyAcct] [] "" fooEmptyAcct itemFooEmpty
    (by decide) (by decide)
  exact ⟨⟨h.1, h.2.2.1 (by decide) "123456789012" (by decide) (by decide)⟩,
    h2.2.2.2 (by decide) (by decide)⟩

/- Frame lemmas for the cross-profile fetch. -/

theorem collectAcrossProfiles_ok (env : Env) (ps : List RegionProfile) :
    ∀ (s : St) (acc : List CustomizationWithProfile),
      (∀ p ∈ ps, env.createQClientResult p = Except.ok ()) →
      (collectAcrossProfiles env ps s acc).1 = Except.ok (acc ++ taggedFetched env ps) ∧
      ∃ l, (collectAcrossProfiles env ps s acc).2 = { s with errorLogs := l } := by
  induction ps with
  | nil =>
    intro s acc h
    exact ⟨by simp [collectAcrossProfiles, taggedFetched], ⟨s.errorLogs, rfl⟩⟩
  | cons p t ih =>
    intro s acc h
    have hp : env.createQClientResult p = Except.ok () := h p (List.mem_cons_self p t)
    have ht : ∀ q ∈ t, env.createQClientResult q = Except.ok () :=
      fun q hq => h q (List.mem_cons_of_mem p hq)
    simp only [collectAcrossProfiles, hp]
    obtain ⟨h1, l0, h2⟩ := listAvailableCustomizations_frame env p s
    rw [h1, h2]
    obtain ⟨hA, l1, hB⟩ := ih { s with errorLogs := s.errorLogs ++ l0 }
      (acc ++ (fetchedCustomizations env p).map (fun c => withProfile c p)) ht
    refine ⟨?_, ⟨l1, ?_⟩⟩
    · rw [hA]
      simp [taggedFetched, List.append_assoc]
    · rw [hB]

theorem collectAcrossProfiles_frame (env : Env) (ps : List RegionProfile) :
    ∀ (s : St) (acc : List CustomizationWithProfile),
      ∃ l, (collectAcrossProfiles env ps s acc).2 = { s with errorLogs := l } := by
  induction ps with
  | nil => intro s acc; exact ⟨s.errorLogs, rfl⟩
  | cons p t ih =>
    intro s acc
    cases hq : env.createQClientResult p with
    | error e => exact ⟨s.errorLogs, by simp [collectAcrossProfiles, hq]⟩
    | ok u =>
      simp only [collectAcrossProfiles, hq]
      obtain ⟨h1, l0, h2⟩ := listAvailableCustomizations_frame env p s
      rw [h2]
      obtain ⟨l1, hB⟩ := ih { s with errorLogs := s.errorLogs ++ l0 }
        (acc ++ (listAvailableCustomizations env p s).1.map (fun c => withProfile c p))
      exact ⟨l1, by rw [hB]⟩

theorem getAvailableCustomizationsList_frame (env : Env) (s : St) :
    ∃ l, (getAvailableCustomizationsList env s).2 = { s with errorLogs := l } := by
  unfold getAvailableCustomizationsList
  cases hr : env.listRegionProfileResult with
  | error e =>
    refine ⟨s.errorLogs ++ ["Failed to list customizations because listAvailableProfiles failed " ++ e], ?_⟩
    simp [hr, pushErrorLog]
  | ok profiles =>
    simp only [hr]
    exact collectAcrossProfiles_frame env profiles s []

/-- C5: when every client creation succeeds, the cross-profile aggregate is
returned without an exception and consists of exactly the per-profile
fetched items tagged with their profile, where a profile whose remote
listing fails contributes an empty list; the single-profile listing
converts its transport error into an empty list plus a log entry. -/
theorem getAvailableCustomizationsList_partial_failure (env : Env) (s : St)
    (profiles : List RegionProfile)
    (hprof : env.listRegionProfileResult = Except.ok profiles)
    (hinit : ∀ p ∈ profiles, env.createQClientResult p = Except.ok ()) :
    (getAvailableCustomizationsList env s).1 = Except.ok (taggedFetched env profiles) ∧
    (∀ p e, env.listCustomizationsResult p = Except.error e →
      fetchedCustomizations env p = [] ∧
      (listAvailableCustomizations env p s).1 = [] ∧
      (listAvailableCustomizations env p s).2.errorLogs =
        s.errorLogs ++ ["failed to listAvailableCustomizations: " ++ e]) := by
  constructor
  · unfold getAvailableCustomizationsList
    simp only [hprof]
    have h := (collectAcrossProfiles_ok env profiles s [] hinit).1
    rw [h]
    simp
  · intro p e he
    refine ⟨by simp [fetchedCustomizations, he], by simp [listAvailableCustomizations, he], ?_⟩
    simp [listAvailableCustomizations, he, pushErrorLog]

/-- Witness for C5 at the concrete three-profile scenario of the spec: the
listing of ProfB fails, and the aggregate contains exactly the items of
ProfA and ProfC, tagged, with ProfB contributing nothing and its error
converted into a log entry. -/
theorem getAvailableCustomizationsList_partial_failure_witness :
    (getAvailableCustomizationsList envPartial exState).1 =
      Except.ok [withProfile custA exProfile, withProfile custB exProfileC] ∧
    (listAvailableCustomizations envPartial exProfileB exState).1 = [] := by
  have h := getAvailableCustomizationsList_partial_failure envPartial exState
    [exProfile, exProfileB, exProfileC] (by rfl) (by decide)
  constructor
  · rw [h.1]
    decide
  · exact (h.2 exProfileB "service down" (by decide)).2.1

theorem getSelected_eq_of_feature_false (t : St) (hf : t.isCustomizationFeatureEnabled = false) :
    getSelectedCustomization t = baseCustomization := by
  cases ho : t.conn with
  | none => exact getSelected_eq_of_conn_none t ho
  | some conn => exact getSelected_eq_of_flags t conn ho (by simp [hf])

theorem notifyNewCustomizations_error_eq (fuel : Nat) (env : Env) (s s1 : St) (e : String)
    (hfail : getAvailableCustomizationsList env s = (Except.error e, s1)) :
    notifyNewCustomizations fuel env s =
      (Except.ok (), pushErrorLog
        (setSelectedCustomization { s1 with isCustomizationFeatureEnabled := false }
          baseCustomization false)
        ("Failed to fetch customizations: " ++ e)) := by
  unfold notifyNewCustomizations
  rw [hfail]

/-- C6 counterexample: on a state without a valid SSO connection whose raw
selection map still holds the stale entry custX, a failing fetch leaves the
stored selection record untouched (it still maps the connection label to
custX, not to the base customization), so the claim that the operation
reverts the stored selection to the base customization is false as
stated. -/
theorem notifyNewCustomizations_no_sso_keeps_stored_selection :
    (getAvailableCustomizationsList envInitFail staleNoSsoState).1 =
      Except.error "no client" ∧
    (notifyNewCustomizations 0 envInitFail staleNoSsoState).2.selectedMap =
      [("ConnL", custX)] ∧
    getKey (notifyNewCustomizations 0 envInitFail staleNoSsoState).2.selectedMap "ConnL" ≠
      some baseCustomization := by
  decide

/-- C6 as amended: when the cross-profile fetch fails,
notifyNewCustomizations catches the exception, disables the feature flag,
makes the effective selection the base customization, overwrites the stored
selection record with the base customization whenever a valid enterprise
SSO connection with an active connection exists, logs the error, and
returns without touching the persisted snapshot and without showing any
notification. -/
theorem notifyNewCustomizations_fetch_failure (fuel : Nat) (env : Env) (s : St) (e : String)
    (hfail : (getAvailableCustomizationsList env s).1 = Except.error e) :
    (notifyNewCustomizations fuel env s).1 = Except.ok () ∧
    (notifyNewCustomizations fuel env s).2.isCustomizationFeatureEnabled = false ∧
    getSelectedCustomization (notifyNewCustomizations fuel env s).2 = baseCustomization ∧
    (∀ conn, s.conn = some conn → s.isValidEnterpriseSsoInUse = true →
      getKey (notifyNewCustomizations fuel env s).2.selectedMap conn.label =
        some baseCustomization) ∧
    (notifyNewCustomizations fuel env s).2.persistedMap = s.persistedMap ∧
    (notifyNewCustomizations fuel env s).2.infoMessages = s.infoMessages ∧
    (notifyNewCustomizations fuel env s).2.warnMessages = s.warnMessages ∧
    ∃ pre, (notifyNewCustomizations fuel env s).2.errorLogs =
      pre ++ ["Failed to fetch customizations: " ++ e] := by
  obtain ⟨l, hl⟩ := getAvailableCustomizationsList_frame env s
  have hsplit : getAvailableCustomizationsList env s = (Except.error e, { s with errorLogs := l }) :=
    Prod.ext_iff.mpr ⟨hfail, hl⟩
  have heq := notifyNewCustomizations_error_eq fuel env s { s with errorLogs := l } e hsplit
  rw [heq]
  obtain ⟨f1, f2, f3, f4, f5, f6, f7, f8⟩ :=
    setSelectedCustomization_frame
      { { s with errorLogs := l } with isCustomizationFeatureEnabled := false }
      baseCustomization false
  refine ⟨rfl, ?_, ?_, ?_, ?_, ?_, ?_, ?_⟩
  · simp [pushErrorLog, f5]
  · exact getSelected_eq_of_feature_false _ (by simp [pushErrorLog, f5])
  · intro conn hconn hsso
    have hwr := setSelectedCustomization_writes
      { { s with errorLogs := l } with isCustomizationFeatureEnabled := false }
      baseCustomization conn (by simp [hconn]) (by simp [hsso])
    simp only [pushErrorLog]
    rw [hwr]
    exact getKey_setKey_self _ _ _
  · simp [pushErrorLog, f1]
  · simp [pushErrorLog, f2]
  · simp [pushErrorLog, f3]
  · exact ⟨l, by simp [pushErrorLog, f4]⟩

/-- Witness for C6 (amended): client creation fails for the only profile,
so the fetch throws; on exState (valid SSO, active connection) the call
returns normally with the feature disabled, the stored selection record
overwritten with base, the snapshot untouched and no notification shown. -/
theorem notifyNewCustomizations_fetch_failure_witness :
    (notifyNewCustomizations 0 envInitFail exState).1 = Except.ok () ∧
    (notifyNewCustomizations 0 envInitFail exState).2.isCustomizationFeatureEnabled = false ∧
    getSelectedCustomization (notifyNewCustomizations 0 envInitFail exState).2 = baseCustomization ∧
    getKey (notifyNewCustomizations 0 envInitFail exState).2.selectedMap "ConnL" =
      some baseCustomization ∧
    (notifyNewCustomizations 0 envInitFail exState).2.persistedMap = exState.persistedMap ∧
    (notifyNewCustomizations 0 envInitFail exState).2.infoMessages = exState.infoMessages ∧
    (notifyNewCustomizations 0 envInitFail exState).2.warnMessages = exState.warnMessages ∧
    ∃ pre, (notifyNewCustomizations 0 envInitFail exState).2.errorLogs =
      pre ++ ["Failed to fetch customizations: " ++ "no client"] := by
  have h := notifyNewCustomizations_fetch_failure 0 envInitFail exState "no client" (by decide)
  exact ⟨h.1, h.2.1, h.2.2.1, h.2.2.2.1 exConn (by decide) (by decide),
    h.2.2.2.2.1, h.2.2.2.2.2.1, h.2.2.2.2.2.2.1, h.2.2.2.2.2.2.2⟩

theorem switchToBase_dismissed (fuel : Nat) (env : Env) (t : St)
    (hresp : env.selectAnotherResponse = false) :
    switchToBaseCustomizationAndNotify fuel env t =
      (Except.ok (), pushWarn (setSelectedCustomization t baseCustomization false)
        customizationNotAvailableMessage) := by
  unfold switchToBaseCustomizationAndNotify
  simp only [hresp, Bool.false_eq_true, if_false]

/-- C2: a profile-change event with customization intent leaves the state
untouched; for any other intent with a profile present, when the selected
customization has a non-empty arn that is absent from the fresh listing,
the listener writes the base customization into the selection record,
makes the effective selection base, appends exactly one warning
notification, leaves the persisted snapshot unchanged, and no exception
escapes. -/
theorem onProfileChangedListener_reconcile (fuel : Nat) (env : Env) (event : ProfileChangedEvent)
    (s : St) (p : RegionProfile) :
    (event.intent = "customization" → onProfileChangedListener fuel env event s = (Except.ok (), s)) ∧
    (event.intent ≠ "customization" → event.profile = some p →
      env.createQClientResult p = Except.ok () →
      0 < (getSelectedCustomization s).arn.length →
      (∀ c ∈ fetchedCustomizations env p, c.arn ≠ (getSelectedCustomization s).arn) →
      env.selectAnotherResponse = false →
      (onProfileChangedListener fuel env event s).1 = Except.ok () ∧
      (∃ conn, s.conn = some conn ∧
        getKey (onProfileChangedListener fuel env event s).2.selectedMap conn.label =
          some baseCustomization) ∧
      getSelectedCustomization (onProfileChangedListener fuel env event s).2 = baseCustomization ∧
      (onProfileChangedListener fuel env event s).2.warnMessages =
        s.warnMessages ++ [customizationNotAvailableMessage] ∧
      (onProfileChangedListener fuel env event s).2.persistedMap = s.persistedMap) := by
  constructor
  · intro h
    unfold onProfileChangedListener
    rw [if_pos h]
  · intro hi hp hq hlen hmiss hresp
    have hfind : (fetchedCustomizations env p).find?
        (fun it => it.arn == (getSelectedCustomization s).arn) = none := by
      apply List.find?_eq_none.mpr
      intro x hx
      simp only [beq_eq_false_iff_ne, ne_eq, beq_iff_eq]
      exact hmiss x hx
    obtain ⟨hA1, l0, hA2⟩ := listAvailableCustomizations_frame env p s
    have heq : onProfileChangedListener fuel env event s =
        switchToBaseCustomizationAndNotify fuel env
          (pushDebugLog { s with errorLogs := s.errorLogs ++ l0 }
            ("profile " ++ p.name ++ " doesnt have access to customization " ++
              (getSelectedCustomization s).name)) := by
      unfold onProfileChangedListener
      rw [if_neg hi]
      simp only [hp]
      rw [if_pos hlen]
      simp only [hq, hA1, hfind, hA2]
    obtain ⟨conn, c, hco, hsso, hfeat, hk, hnm, hsel⟩ := getSelectedCustomization_nonbase s hlen
    set s2 : St := pushDebugLog { s with errorLogs := s.errorLogs ++ l0 }
      ("profile " ++ p.name ++ " doesnt have access to customization " ++
        (getSelectedCustomization s).name) with hs2
    have hs2conn : s2.conn = some conn := by simp [hs2, pushDebugLog, hco]
    have hs2sso : s2.isValidEnterpriseSsoInUse = true := by simp [hs2, pushDebugLog, hsso]
    have hs2feat : s2.isCustomizationFeatureEnabled = true := by simp [hs2, pushDebugLog, hfeat]
    have hs2sel : s2.selectedMap = s.selectedMap := by simp [hs2, pushDebugLog]
    have hs2warn : s2.warnMessages = s.warnMessages := by simp [hs2, pushDebugLog]
    have hs2pers : s2.persistedMap = s.persistedMap := by simp [hs2, pushDebugLog]
    rw [heq, switchToBase_dismissed fuel env s2 hresp]
    obtain ⟨f1, f2, f3, f4, f5, f6, f7, f8⟩ := setSelectedCustomization_frame s2 baseCustomization false
    have hwrites := setSelectedCustomization_writes s2 baseCustomization conn hs2conn hs2sso
    refine ⟨rfl, ⟨conn, hco, ?_⟩, ?_, ?_, ?_⟩
    · simp only [pushWarn]
      rw [hwrites, hs2sel]
      exact getKey_setKey_self _ _ _
    · apply getSelectedCustomization_of_entry _ conn baseCustomization
      · simp [pushWarn, f7, hs2conn]
      · simp [pushWarn, f5, hs2feat]
      · simp [pushWarn, f6, hs2sso]
      · simp only [pushWarn]
        rw [hwrites, hs2sel]
        exact getKey_setKey_self _ _ _
      · decide
    · simp [pushWarn, f3, hs2warn]
    · simp [pushWarn, f1, hs2pers]

/-- Witness for C2: on exState (selected arn X, non-empty) with a fresh
listing that is empty, a profile-switch event reverts the stored selection
to base and appends exactly one warning, while a customization-intent event
leaves the state untouched. -/
theorem onProfileChangedListener_reconcile_witness :
    ((onProfileChangedListener 0 envEmpty exEvent exState).1 = Except.ok () ∧
      (∃ conn, exState.conn = some conn ∧
        getKey (onProfileChangedListener 0 envEmpty exEvent exState).2.selectedMap conn.label =
          some baseCustomization) ∧
      getSelectedCustomization (onProfileChangedListener 0 envEmpty exEvent exState).2 =
        baseCustomization ∧
      (onProfileChangedListener 0 envEmpty exEvent exState).2.warnMessages =
        exState.warnMessages ++ [customizationNotAvailableMessage] ∧
      (onProfileChangedListener 0 envEmpty exEvent exState).2.persistedMap =
        exState.persistedMap) ∧
    onProfileChangedListener 0 envEmpty exEventCust exState = (Except.ok (), exState) :=
  ⟨(onProfileChangedListener_reconcile 0 envEmpty exEvent exState exProfile).2
      (by decide) (by decide) (by decide) (by decide) (by decide) (by decide),
    (onProfileChangedListener_reconcile 0 envEmpty exEventCust exState exProfile).1 (by decide)⟩

end CwUtil
